import Mathlib

/-!
Shallow embedding of the thermux firmware self-update subsystem
(src/main/version_utils.c, src/main/ota_updater.c, src/main/web_server.c)
together with theorems settling the specification claims about it.
-/

namespace Thermux


/-- Whitespace characters recognised by `sscanf`'s `%d` conversion. -/
def isWs (c : Char) : Bool :=
  c = ' ' || c = '\t' || c = '\n' || c = '\x0b' || c = '\x0c' || c = '\r'

/-- Drop leading whitespace, as `%d` does before the number. -/
def skipWs : List Char → List Char
  | [] => []
  | c :: cs => if isWs c then skipWs cs else c :: cs

/-- Value of a digit run, most significant digit first. -/
def digitsToNat (ds : List Char) : Nat :=
  ds.foldl (fun acc c => 10 * acc + (c.toNat - 48)) 0

/-- Scan a nonempty digit run; `none` is a `sscanf` matching failure. -/
def scanNat (cs : List Char) : Option (Nat × List Char) :=
  match cs with
  | [] => none
  | c :: _ =>
    if c.isDigit then
      some (digitsToNat (cs.takeWhile Char.isDigit), cs.dropWhile Char.isDigit)
    else none

/-- One `%d` conversion: whitespace, optional sign, digit run. -/
def scanInt (cs : List Char) : Option (Int × List Char) :=
  match skipWs cs with
  | '-' :: rest => (scanNat rest).map (fun p => (-(p.1 : Int), p.2))
  | '+' :: rest => (scanNat rest).map (fun p => ((p.1 : Int), p.2))
  | cs1 => (scanNat cs1).map (fun p => ((p.1 : Int), p.2))

/-- Model of `sscanf(v, "%d.%d.%d", &major, &minor, &patch)` with all three
variables initialised to 0: components not assigned remain 0. -/
def sscanf3 (cs : List Char) : Int × Int × Int :=
  match scanInt cs with
  | none => (0, 0, 0)
  | some (a, r1) =>
    match r1 with
    | '.' :: r2 =>
      match scanInt r2 with
      | none => (a, 0, 0)
      | some (b, r3) =>
        match r3 with
        | '.' :: r4 =>
          match scanInt r4 with
          | none => (a, b, 0)
          | some (c, _) => (a, b, c)
        | _ => (a, b, 0)
    | _ => (a, 0, 0)

/-- Skip one leading `v`/`V`, as in `if (v1[0] == 'v' || v1[0] == 'V') v1++;`. -/
def stripV (cs : List Char) : List Char :=
  match cs with
  | [] => []
  | c :: rest => if c = 'v' || c = 'V' then rest else c :: rest

/-- The (major, minor, patch) triple `version_compare` extracts from one input. -/
def versionTriple (s : String) : Int × Int × Int :=
  sscanf3 (stripV s.data)

/-- The comparison chain at the end of `version_compare`. -/
def compareTriples : Int × Int × Int → Int × Int × Int → Int
  | (major1, minor1, patch1), (major2, minor2, patch2) =>
    if major1 ≠ major2 then major1 - major2
    else if minor1 ≠ minor2 then minor1 - minor2
    else patch1 - patch2

/-- Model of `version_compare` from version_utils.c; `none` stands for a NULL
pointer argument. -/
def version_compare : Option String → Option String → Int
  | some v1, some v2 => compareTriples (versionTriple v1) (versionTriple v2)
  | _, _ => 0

/-- Model of `version_is_newer` from version_utils.c. -/
def version_is_newer (v1 v2 : Option String) : Bool :=
  version_compare v1 v2 > 0

/-- Lexicographic comparison of two (major, minor, patch) integer triples,
written from the specification's words, independently of the code. -/
def specLexOrd (t1 t2 : Int × Int × Int) : Ordering :=
  if t1.1 < t2.1 then .lt else if t2.1 < t1.1 then .gt
  else if t1.2.1 < t2.2.1 then .lt else if t2.2.1 < t1.2.1 then .gt
  else if t1.2.2 < t2.2.2 then .lt else if t2.2.2 < t1.2.2 then .gt
  else .eq

def ESP_OK : Int := 0

def ESP_FAIL : Int := -1

def ESP_ERR_INVALID_STATE : Int := 259

/-- The `ota_check_state_t` enum. -/
inductive CheckState
  | idle
  | inProgress
  | complete
  | failed
deriving DecidableEq

/-- The `ota_update_state_t` enum. -/
inductive UpdateState
  | idle
  | downloading
  | complete
  | failed
deriving DecidableEq

/-- The static variables of ota_updater.c that the claims are about. -/
structure OtaVars where
  check_state : CheckState
  update_available : Bool
  latest_version : String
  download_url : String
  update_state : UpdateState
  download_progress : Nat
  download_total : Nat
  download_received : Nat
deriving DecidableEq

/-- Model of `ota_updater_init`: clears the release info. -/
def ota_updater_init (s : OtaVars) : OtaVars × Int :=
  ({ s with update_available := false, latest_version := "", download_url := "" },
    ESP_OK)


def OTA_CHECK_MAX_RETRIES : Nat := 3

def OTA_CHECK_RETRY_DELAY_MS : Nat := 2000

/-- Outcome of one run of the retry loop: the returned esp_err_t, the number
of attempts performed, and the `vTaskDelay` waits (in ms) in order. -/
structure CheckRun where
  err : Int
  attempts : Nat
  delays : List Nat
deriving DecidableEq

/-- The `for (attempt = 1; attempt <= OTA_CHECK_MAX_RETRIES; attempt++)` loop
of `ota_check_for_update`; `res i` is the esp_err_t returned by the i-th call
of `ota_check_for_update_internal`, and `fuel` counts the attempts still
allowed (so `fuel = 0` inside the loop body is `attempt = MAX_RETRIES`). -/
def checkLoop (res : Nat → Int) : Nat → Nat → Nat → List Nat → CheckRun
  | fuel + 1, attempt, delayMs, ds =>
    let e := res attempt
    if e = ESP_OK then { err := e, attempts := attempt, delays := ds.reverse }
    else if fuel = 0 then { err := e, attempts := attempt, delays := ds.reverse }
    else checkLoop res fuel (attempt + 1) (delayMs * 2) (delayMs :: ds)
  | 0, attempt, _, ds => { err := ESP_FAIL, attempts := attempt, delays := ds.reverse }

/-- Model of `ota_check_for_update`: up to 3 attempts with 2000 ms base delay,
doubled after each failed attempt. -/
def ota_check_for_update (res : Nat → Int) : CheckRun :=
  checkLoop res OTA_CHECK_MAX_RETRIES 1 OTA_CHECK_RETRY_DELAY_MS []

/-- Model of `ota_check_for_update_async`. `taskCreateOk` is the result of
`xTaskCreate`; the returned Bool records whether a worker task was spawned. -/
def ota_check_for_update_async (taskCreateOk : Bool) (s : OtaVars) :
    OtaVars × Int × Bool :=
  if s.check_state = CheckState.inProgress then (s, ESP_ERR_INVALID_STATE, false)
  else
    let s1 := { s with check_state := CheckState.inProgress,
                       update_available := false, latest_version := "" }
    if taskCreateOk then (s1, ESP_OK, true)
    else ({ s1 with check_state := CheckState.failed }, ESP_FAIL, false)

/-- Model of `ota_start_update`. The returned Bool records whether an install
worker task was spawned. The source checks only `s_update_available` and
`s_download_url`; it reads `s_update_state` nowhere. -/
def ota_start_update (s : OtaVars) : OtaVars × Int × Bool :=
  if ¬ s.update_available ∨ s.download_url = "" then (s, ESP_ERR_INVALID_STATE, false)
  else
    ({ s with update_state := UpdateState.idle, download_progress := 0,
              download_total := 0, download_received := 0 },
      ESP_OK, true)

/-- A reachable state with an install in flight: a check found an update and
its URL, and the spawned installer is downloading at 42%. -/
def midDownloadVars : OtaVars :=
  ⟨CheckState.complete, true, "v2.0.0", "https://e/fw.bin",
    UpdateState.downloading, 42, 1000, 420⟩

/-- One entry of the `assets` JSON array; `none` models a field that is
missing or not a string (the `cJSON_IsString` checks). -/
structure Asset where
  name : Option String
  url : Option String
deriving DecidableEq

/-- A parsed release object: `tag_name` and `assets` as the code reads them;
`none` models a missing or wrongly typed field. -/
structure ReleaseJson where
  tagName : Option String
  assets : Option (List Asset)
deriving DecidableEq

/-- Observable outcome of the HTTP request performed by one query attempt.
`body = none` models no response buffer delivered; `body = some none` models
a buffer that `cJSON_Parse` rejects. -/
structure QueryEnv where
  performOk : Bool
  status : Int
  body : Option (Option ReleaseJson)
deriving DecidableEq

/-- Whether `needle` occurs in `hay`, as `strstr` reports. -/
def listHasSub (n : List Char) : List Char → Bool
  | [] => n.isEmpty
  | c :: cs => n.isPrefixOf (c :: cs) || listHasSub n cs

/-- Model of `strstr(name, needle) != NULL`. -/
def hasSubstr (needle s : String) : Bool :=
  listHasSub needle.data s.data

/-- The asset scan of `ota_check_for_update_internal`: the first asset whose
`name` and `browser_download_url` are strings and whose name contains ".bin"
provides the download URL. -/
def findBinAsset : List Asset → Option String
  | [] => none
  | a :: rest =>
    match a.name, a.url with
    | some n, some u => if hasSubstr ".bin" n then some u else findBinAsset rest
    | _, _ => findBinAsset rest

/-- Truncation performed by `strncpy` into a fixed buffer of `n + 1` bytes. -/
def strTrunc (n : Nat) (s : String) : String :=
  String.mk (s.data.take n)

/-- Model of `ota_check_for_update_internal`: its effect on the module
variables and its esp_err_t result, given the observable HTTP outcome.
`appVersion` is the `APP_VERSION` constant. -/
def ota_check_for_update_internal (appVersion : String) (env : QueryEnv)
    (s : OtaVars) : OtaVars × Int :=
  if ¬ env.performOk then (s, ESP_FAIL)
  else if env.status = 200 then
    match env.body with
    | none => (s, ESP_FAIL)
    | some none => (s, ESP_OK)
    | some (some r) =>
      match r.tagName with
      | none => (s, ESP_OK)
      | some tag =>
        let s1 := { s with latest_version := strTrunc 31 tag }
        if version_compare (some s1.latest_version) (some appVersion) > 0 then
          let s2 := { s1 with update_available := true }
          match r.assets with
          | none => (s2, ESP_OK)
          | some assets =>
            match findBinAsset assets with
            | none => (s2, ESP_OK)
            | some u => ({ s2 with download_url := strTrunc 511 u }, ESP_OK)
        else (s1, ESP_OK)
  else (s, ESP_FAIL)

/-- A state in which an earlier query already recorded a download URL. -/
def staleUrlVars : OtaVars :=
  ⟨CheckState.complete, true, "v1.5.0", "https://old.example/fw-v1.bin",
    UpdateState.idle, 0, 0, 0⟩

/-- A successful query for a newer release whose asset list is empty. -/
def noAssetQuery : QueryEnv :=
  ⟨true, 200, some (some ⟨some "v9.9.9", some []⟩)⟩

structure DlEnv where
  beginErr : Option Int
  imageSize : Nat
  reads : List Nat
  performErr : Option Int
  completeData : Bool
  finishErr : Option Int
deriving DecidableEq

/-- The download total: the server-reported size, or the 1.1 MB estimate when
the server does not provide one. -/
def dlTotal (env : DlEnv) : Nat :=
  if env.imageSize > 0 then env.imageSize else 1100 * 1024

/-- Progress written after a loop iteration: `(received * 100) / total`,
capped at 99. Each iteration's progress update is modelled by its final
(capped) value. -/
def dlPct (total r : Nat) : Nat :=
  min (r * 100 / total) 99

/-- One snapshot of the (update state, download progress) pair, as a
concurrent status poller may observe it. -/
structure Obs where
  state : UpdateState
  progress : Nat
deriving DecidableEq

/-- The sequence of (state, progress) snapshots `ota_update_task` exposes, one
after each write of either variable that changes the pair. -/
def ota_update_task_trace (env : DlEnv) : List Obs :=
  let t0 : Obs := ⟨UpdateState.downloading, 0⟩
  match env.beginErr with
  | some _ => [t0, ⟨UpdateState.failed, 0⟩]
  | none =>
    let total := dlTotal env
    let loopObs := env.reads.map (fun r => Obs.mk UpdateState.downloading (dlPct total r))
    let lastP := dlPct total (env.reads.getLast?.getD 0)
    match env.performErr with
    | some _ => t0 :: loopObs ++ [⟨UpdateState.failed, lastP⟩]
    | none =>
      if env.completeData then
        t0 :: loopObs ++ [⟨UpdateState.downloading, 100⟩] ++
          (match env.finishErr with
            | none => [⟨UpdateState.complete, 100⟩]
            | some _ => [⟨UpdateState.failed, 100⟩])
      else t0 :: loopObs ++ [⟨UpdateState.failed, lastP⟩]

/-- Summary of one `ota_update_task` run: whether the OTA write was begun,
whether `esp_https_ota_abort` was called, whether the boot partition was
switched (inside a successful `esp_https_ota_finish`), and the final state. -/
structure DlResult where
  began : Bool
  aborted : Bool
  bootSwitched : Bool
  finalState : UpdateState
deriving DecidableEq

/-- Control-flow summary of `ota_update_task`. -/
def ota_update_task_run (env : DlEnv) : DlResult :=
  match env.beginErr with
  | some _ => ⟨false, false, false, UpdateState.failed⟩
  | none =>
    match env.performErr with
    | some _ => ⟨true, true, false, UpdateState.failed⟩
    | none =>
      if env.completeData then
        match env.finishErr with
        | none => ⟨true, false, true, UpdateState.complete⟩
        | some _ => ⟨true, false, false, UpdateState.failed⟩
      else ⟨true, true, false, UpdateState.failed⟩

/-- A download in which all data arrives and verifies, but
`esp_https_ota_finish` then fails. -/
def finishFailEnv : DlEnv :=
  ⟨none, 1000, [500, 1000], none, true, some (-1)⟩

/-- One return of `httpd_req_recv`: a timeout (the handler retries), a socket
error, or a chunk of bytes. -/
inductive RecvEv
  | timeout
  | sockErr
  | chunk (data : List Nat)
deriving DecidableEq

/-- Observable environment of one upload request: the Content-Length, the
sequence of `httpd_req_recv` returns, and the outcomes of the allocation,
partition lookup and `esp_ota_*` calls. `writeErrAt = some k` makes the
k-th (0-based) `esp_ota_write` call fail. -/
structure UpEnv where
  contentLen : Nat
  events : List RecvEv
  allocOk : Bool
  hasPartition : Bool
  beginErr : Option Int
  writeErrAt : Option Nat
  endErr : Option Int
  setBootErr : Option Int
deriving DecidableEq

/-- Summary of one upload-handler run: whether a success response was sent,
whether `esp_ota_begin` was reached, the number of `esp_ota_write` calls
attempted, the bytes written, whether `esp_ota_abort` was called, and whether
the boot partition was switched. -/
structure UpResult where
  httpOk : Bool
  began : Bool
  writes : Nat
  received : Nat
  aborted : Bool
  bootSwitched : Bool
deriving DecidableEq

/-- Whether the `esp_ota_write` call with 0-based index `idx` fails. -/
def writeFails (env : UpEnv) (idx : Nat) : Bool :=
  match env.writeErrAt with
  | some k => idx = k
  | none => false

/-- The code after the receive loop of `api_ota_upload_handler`:
`esp_ota_end`, then `esp_ota_set_boot_partition`, then the success response. -/
def upExit (env : UpEnv) (received writes : Nat) : Option UpResult :=
  match env.endErr with
  | some _ => some ⟨false, true, writes, received, false, false⟩
  | none =>
    match env.setBootErr with
    | some _ => some ⟨false, true, writes, received, false, false⟩
    | none => some ⟨true, true, writes, received, false, true⟩

/-- The receive-and-write loop of `api_ota_upload_handler`, followed by
`upExit`. `first` is the `first_chunk` flag. Returns `none` when the modelled
event list is exhausted while data is still expected (the real handler would
still be blocked in `httpd_req_recv`). -/
def upLoop (env : UpEnv) : List RecvEv → Nat → Nat → Bool → Nat → Option UpResult
  | evs, remaining, received, first, writes =>
    if remaining = 0 then upExit env received writes
    else
      match evs with
      | [] => none
      | RecvEv.timeout :: rest => upLoop env rest remaining received first writes
      | RecvEv.sockErr :: _ => some ⟨false, !first, writes, received, !first, false⟩
      | RecvEv.chunk data :: rest =>
        let recvLen := min data.length (min remaining 4096)
        if first then
          if data.headD 0 = 0xE9 then
            match env.beginErr with
            | some _ => some ⟨false, false, writes, received, false, false⟩
            | none =>
              if writeFails env writes then
                some ⟨false, true, writes + 1, received, true, false⟩
              else
                upLoop env rest (remaining - recvLen) (received + recvLen) false
                  (writes + 1)
          else some ⟨false, false, writes, received, false, false⟩
        else
          if writeFails env writes then
            some ⟨false, true, writes + 1, received, true, false⟩
          else
            upLoop env rest (remaining - recvLen) (received + recvLen) false
              (writes + 1)

/-- Model of `api_ota_upload_handler`. The handler never references the OTA
module's state variables, so it returns the given `OtaVars` unchanged. -/
def api_ota_upload_handler (env : UpEnv) (s : OtaVars) :
    Option UpResult × OtaVars :=
  (if env.contentLen = 0 ∨ env.contentLen > 1500000 then
    some ⟨false, false, 0, 0, false, false⟩
  else if ¬ env.allocOk then some ⟨false, false, 0, 0, false, false⟩
  else if ¬ env.hasPartition then some ⟨false, false, 0, 0, false, false⟩
  else upLoop env env.events env.contentLen 0 true 0, s)

/-- An 8-byte upload delivered in two 4-byte chunks whose second
`esp_ota_write` call fails. -/
def writeFailEnv : UpEnv :=
  ⟨8, [RecvEv.chunk [0xE9, 1, 2, 3], RecvEv.chunk [4, 5, 6, 7]],
    true, true, none, some 1, none, none⟩

/-- Module state with no install in flight. -/
def idleVars : OtaVars :=
  ⟨CheckState.complete, true, "v2.0.0", "https://e/fw.bin",
    UpdateState.idle, 0, 0, 0⟩

/-- An upload whose first delivered byte is 0x12 instead of the 0xE9 magic. -/
def badMagicEnv : UpEnv :=
  ⟨100, [RecvEv.chunk [0x12, 0x34]], true, true, none, none, none, none⟩


/-! ### Theorems settling the claims -/

/-- C4: for all (non-NULL) version strings, the sign of `version_compare`
agrees exactly with the lexicographic comparison of the parsed
(major, minor, patch) integer triples, and in particular
`compare("1.0.10", "1.0.9") > 0` and `compare("1", "1.0.0") = 0`. -/
theorem version_compare_matches_lex_triples :
    (∀ a b : String,
      (version_compare (some a) (some b) < 0 ↔
        specLexOrd (versionTriple a) (versionTriple b) = .lt) ∧
      (version_compare (some a) (some b) = 0 ↔
        specLexOrd (versionTriple a) (versionTriple b) = .eq) ∧
      (0 < version_compare (some a) (some b) ↔
        specLexOrd (versionTriple a) (versionTriple b) = .gt)) ∧
    0 < version_compare (some "1.0.10") (some "1.0.9") ∧
    version_compare (some "1") (some "1.0.0") = 0 := by
  refine ⟨fun a b => ?_, by decide, by decide⟩
  rcases hA : versionTriple a with ⟨a1, b1, c1⟩
  rcases hB : versionTriple b with ⟨a2, b2, c2⟩
  simp only [version_compare, hA, hB, compareTriples, specLexOrd]
  split_ifs <;> simp_all <;> omega

/-- C5 counterexample: the claim `compare("", x) = 0` for every `x` is false
at `x = "1.0.0"`, where the empty string parses as (0,0,0) and the result is
negative. -/
theorem version_compare_empty_not_always_zero :
    version_compare (some "") (some "1.0.0") ≠ 0 := by decide

/-- C5 amended: a NULL argument on either side yields 0, and an empty string
behaves as the parsed triple (0,0,0): `compare("", x)` (resp. `compare(x, "")`)
is 0 exactly when `x` itself parses to (0,0,0). -/
theorem version_compare_null_and_empty :
    (∀ x : Option String, version_compare none x = 0 ∧ version_compare x none = 0) ∧
    versionTriple "" = (0, 0, 0) ∧
    (∀ s : String,
      (version_compare (some "") (some s) = 0 ↔ versionTriple s = (0, 0, 0)) ∧
      (version_compare (some s) (some "") = 0 ↔ versionTriple s = (0, 0, 0))) := by
  refine ⟨fun x => ⟨by cases x <;> rfl, by cases x <;> rfl⟩, by decide, fun s => ?_⟩
  rcases hS : versionTriple s with ⟨a, b, c⟩
  have hE : versionTriple "" = ((0 : Int), (0 : Int), (0 : Int)) := by decide
  simp only [version_compare, hS, hE, compareTriples, Prod.mk.injEq]
  constructor <;> constructor <;> intro h
  · split_ifs at h <;> omega
  · obtain ⟨ha, hb, hc⟩ := h
    simp [ha, hb, hc]
  · split_ifs at h <;> omega
  · obtain ⟨ha, hb, hc⟩ := h
    simp [ha, hb, hc]

/-- Trailing characters that are not digits stop the scan after the third
component, so the parsed triple ignores them. -/
theorem takeWhile_digits_nil (t : List Char)
    (h : ∀ c ∈ t.head?, ¬ c.isDigit = true) :
    t.takeWhile Char.isDigit = [] ∧ t.dropWhile Char.isDigit = t := by
  cases t with
  | nil => exact ⟨rfl, rfl⟩
  | cons c cs =>
    have hc : ¬ c.isDigit = true := h c (by simp)
    simp [List.takeWhile, List.dropWhile, hc]

/-- C10: characters after the three parsed components never influence the
comparison: `"1.2.3-rc1"`, `"1.2.3.9"` and `"1.2.3"` all compare equal, and in
general any suffix starting with a non-digit leaves the parsed triple of
`"1.2.3"` unchanged. -/
theorem version_compare_ignores_trailing :
    version_compare (some "1.2.3-rc1") (some "1.2.3") = 0 ∧
    version_compare (some "1.2.3.9") (some "1.2.3") = 0 ∧
    version_compare (some "1.2.3-rc1") (some "1.2.3.9") = 0 ∧
    (∀ t : List Char, (∀ c ∈ t.head?, ¬ c.isDigit = true) →
      version_compare (some (String.mk ('1' :: '.' :: '2' :: '.' :: '3' :: t)))
          (some "1.2.3") = 0) := by
  refine ⟨by decide, by decide, by decide, fun t ht => ?_⟩
  obtain ⟨h1, h2⟩ := takeWhile_digits_nil t ht
  have key : versionTriple (String.mk ('1' :: '.' :: '2' :: '.' :: '3' :: t)) =
      (1, 2, (digitsToNat ('3' :: t.takeWhile Char.isDigit) : Int)) := rfl
  have htr : versionTriple (String.mk ('1' :: '.' :: '2' :: '.' :: '3' :: t)) =
      ((1 : Int), (2 : Int), (3 : Int)) := by
    rw [key, h1]
    decide
  have hvc : version_compare (some (String.mk ('1' :: '.' :: '2' :: '.' :: '3' :: t)))
      (some "1.2.3") =
      compareTriples (versionTriple (String.mk ('1' :: '.' :: '2' :: '.' :: '3' :: t)))
        (versionTriple "1.2.3") := rfl
  rw [hvc, htr]
  decide

/-- C10 witness: the general suffix statement applied to the suffix "-rc1". -/
theorem version_compare_ignores_trailing_witness :
    version_compare (some (String.mk
        ('1' :: '.' :: '2' :: '.' :: '3' :: '-' :: 'r' :: 'c' :: '1' :: [])))
      (some "1.2.3") = 0 :=
  version_compare_ignores_trailing.2.2.2
    ('-' :: 'r' :: 'c' :: '1' :: []) (by decide)


/-- C6: the blocking check makes at most 3 attempts, stops at the first
success, delays 2000 ms after the first failure and 4000 ms after the second,
and returns the last attempt's error when all three fail. -/
theorem check_retry_schedule (res : Nat → Int) :
    (ota_check_for_update res).attempts ≤ 3 ∧
    (res 1 = ESP_OK →
      ota_check_for_update res = ⟨ESP_OK, 1, []⟩) ∧
    (res 1 ≠ ESP_OK → res 2 = ESP_OK →
      ota_check_for_update res = ⟨ESP_OK, 2, [2000]⟩) ∧
    (res 1 ≠ ESP_OK → res 2 ≠ ESP_OK → res 3 = ESP_OK →
      ota_check_for_update res = ⟨ESP_OK, 3, [2000, 4000]⟩) ∧
    (res 1 ≠ ESP_OK → res 2 ≠ ESP_OK → res 3 ≠ ESP_OK →
      ota_check_for_update res = ⟨res 3, 3, [2000, 4000]⟩) := by
  have e1 : ota_check_for_update res =
      (if res 1 = ESP_OK then ⟨res 1, 1, []⟩
       else if res 2 = ESP_OK then ⟨res 2, 2, [2000]⟩
       else if res 3 = ESP_OK then ⟨res 3, 3, [2000, 4000]⟩
       else ⟨res 3, 3, [2000, 4000]⟩) := rfl
  rw [e1]
  refine ⟨?_, ?_, ?_, ?_, ?_⟩ <;>
    · split_ifs <;> simp_all

/-- C6 witness: all three attempts fail with ESP_FAIL. -/
theorem check_retry_schedule_witness :
    ota_check_for_update (fun _ => ESP_FAIL) = ⟨ESP_FAIL, 3, [2000, 4000]⟩ :=
  (check_retry_schedule (fun _ => ESP_FAIL)).2.2.2.2
    (by decide) (by decide) (by decide)


/-- C7: starting an async check while one is InProgress returns the
"already in progress" error, changes none of the module's variables, and
spawns no worker. -/
theorem check_async_rejected_while_in_progress (ok : Bool) (s : OtaVars)
    (h : s.check_state = CheckState.inProgress) :
    ota_check_for_update_async ok s = (s, ESP_ERR_INVALID_STATE, false) := by
  simp [ota_check_for_update_async, h]

/-- C7 witness: a concrete in-progress state. -/
theorem check_async_rejected_while_in_progress_witness :
    ota_check_for_update_async true
        ⟨CheckState.inProgress, true, "v2.0.0", "https://e/fw.bin",
          UpdateState.idle, 0, 0, 0⟩ =
      (⟨CheckState.inProgress, true, "v2.0.0", "https://e/fw.bin",
          UpdateState.idle, 0, 0, 0⟩, ESP_ERR_INVALID_STATE, false) :=
  check_async_rejected_while_in_progress true _ rfl


/-- C3 evaluation: with the update state Downloading, `ota_start_update` is
not rejected — it returns ESP_OK, spawns a second worker task and resets the
in-flight install's state and progress. The claimed UpdateState guard does
not exist in the code. -/
theorem start_update_no_downloading_guard :
    ota_start_update midDownloadVars =
      (⟨CheckState.complete, true, "v2.0.0", "https://e/fw.bin",
          UpdateState.idle, 0, 0, 0⟩, ESP_OK, true) ∧
    midDownloadVars.update_state = UpdateState.downloading := by decide


/-- C9 counterexample: a query that finds no matching asset does not leave
`firmware_url` unset — the URL recorded by an earlier query survives, so the
set URL was not found by scanning this query's asset list. -/
theorem release_url_carried_over :
    (ota_check_for_update_internal "1.0.0" noAssetQuery staleUrlVars).1.download_url
        = "https://old.example/fw-v1.bin" ∧
    findBinAsset [] = none ∧
    "https://old.example/fw-v1.bin" ≠ "" := by decide

/-- C9 amended: `firmware_url` is cleared only by `ota_updater_init`; a query
either leaves it exactly as it was, or overwrites it with the URL of the first
asset of that query's list whose name and URL are strings and whose name
contains ".bin" (first match wins, as `List.find?` states). A query that finds
no matching asset therefore keeps the previous value — possibly a URL from an
earlier query — rather than unsetting it. -/
theorem release_url_provenance :
    (∀ s : OtaVars, (ota_updater_init s).1.download_url = "") ∧
    (∀ l : List Asset, findBinAsset l =
      (l.find? fun a => a.name.isSome && a.url.isSome &&
        hasSubstr ".bin" (a.name.getD "")).bind Asset.url) ∧
    (∀ (appVersion : String) (env : QueryEnv) (s : OtaVars),
      (ota_check_for_update_internal appVersion env s).1.download_url
          = s.download_url ∨
      (∃ r assets u, env.body = some (some r) ∧ r.assets = some assets ∧
        findBinAsset assets = some u ∧
        (ota_check_for_update_internal appVersion env s).1.download_url
            = strTrunc 511 u)) := by
  refine ⟨fun s => rfl, fun l => ?_, fun appVersion env s => ?_⟩
  · induction l with
    | nil => rfl
    | cons a rest ih =>
      rcases a with ⟨name, url⟩
      rcases name with _ | n <;> rcases url with _ | u <;>
        simp [findBinAsset, List.find?, ih]
      by_cases hb : hasSubstr ".bin" n <;> simp [hb, ih]
  · rcases env with ⟨perf, status, body⟩
    cases perf with
    | false => exact Or.inl rfl
    | true =>
      by_cases hs : status = (200 : Int)
      · subst hs
        rcases body with _ | rj
        · exact Or.inl rfl
        rcases rj with _ | r
        · exact Or.inl rfl
        rcases r with ⟨tagO, assetsO⟩
        rcases tagO with _ | tag
        · exact Or.inl rfl
        have hbody : ota_check_for_update_internal appVersion
            ⟨true, 200, some (some ⟨some tag, assetsO⟩)⟩ s =
            (if version_compare (some (strTrunc 31 tag)) (some appVersion) > 0 then
              (match assetsO with
               | none =>
                 ({ s with latest_version := strTrunc 31 tag,
                           update_available := true }, ESP_OK)
               | some assets =>
                 match findBinAsset assets with
                 | none =>
                   ({ s with latest_version := strTrunc 31 tag,
                             update_available := true }, ESP_OK)
                 | some u =>
                   ({ s with latest_version := strTrunc 31 tag,
                             update_available := true,
                             download_url := strTrunc 511 u }, ESP_OK))
             else ({ s with latest_version := strTrunc 31 tag }, ESP_OK)) := rfl
        rw [hbody]
        split_ifs with hv
        · rcases assetsO with _ | assets
          · exact Or.inl rfl
          dsimp only
          rcases hf : findBinAsset assets with _ | u
          · exact Or.inl rfl
          · exact Or.inr ⟨⟨some tag, some assets⟩, assets, u, rfl, rfl, hf, rfl⟩
        · exact Or.inl rfl
      · have hfail : ota_check_for_update_internal appVersion
            ⟨true, status, body⟩ s = (s, ESP_FAIL) := by
          unfold ota_check_for_update_internal
          simp [hs]
        rw [hfail]
        exact Or.inl rfl


/-- C2 counterexample: in the `finishFailEnv` run the trace contains the
snapshot (Failed, 100) — `s_download_progress` is set to 100 before
`esp_https_ota_finish`, so a poller can observe 100% and then a Failed
state. -/
theorem progress_100_while_not_complete :
    ¬ (∀ o ∈ ota_update_task_trace finishFailEnv,
        o.state ≠ UpdateState.complete → o.progress < 100) := by
  decide


theorem dlPct_le_99 (total r : Nat) : dlPct total r ≤ 99 :=
  min_le_right _ _

theorem dlPct_mono (total : Nat) {r s : Nat} (h : r ≤ s) :
    dlPct total r ≤ dlPct total s :=
  min_le_min (Nat.div_le_div_right (Nat.mul_le_mul_right 100 h)) le_rfl

theorem chain_le_append_one (l : List Nat) (x : Nat) (hl : l.Chain' (· ≤ ·))
    (hx : ∀ a ∈ l.getLast?, a ≤ x) : (l ++ [x]).Chain' (· ≤ ·) := by
  rw [List.chain'_append]
  refine ⟨hl, List.chain'_singleton x, ?_⟩
  intro a ha y hy
  simp only [List.head?_cons, Option.mem_def, Option.some.injEq] at hy
  subst hy
  exact hx a ha

theorem chain_le_zero_cons (l : List Nat) (hl : l.Chain' (· ≤ ·)) :
    ((0 : Nat) :: l).Chain' (· ≤ ·) := by
  rw [List.chain'_cons']
  exact ⟨fun y _ => Nat.zero_le y, hl⟩

theorem pcts_getLast_le (total : Nat) (reads : List Nat) (x : Nat)
    (hx : dlPct total (reads.getLast?.getD 0) ≤ x) :
    ∀ a ∈ (reads.map (dlPct total)).getLast?, a ≤ x := by
  intro a ha
  rw [List.getLast?_map] at ha
  rcases hg : reads.getLast? with _ | r
  · rw [hg] at ha
    simp at ha
  · rw [hg] at ha
    simp only [Option.map_some', Option.mem_def, Option.some.injEq] at ha
    subst ha
    rw [hg] at hx
    exact hx

/-- C2 amended: assuming the transport's cumulative read counter is
nondecreasing, the progress snapshots of `ota_update_task` never decrease
within a single download, and every snapshot is at most 99 except that after
the complete-data check has passed (perform loop ended without error,
complete data received) progress is set to 100 — before finalization, so a
poller may observe 100 with state Downloading, and Failed with 100 if
`esp_https_ota_finish` then fails. -/
theorem download_progress_monotone_and_capped (env : DlEnv)
    (hmono : env.reads.Chain' (· ≤ ·)) :
    ((ota_update_task_trace env).map Obs.progress).Chain' (· ≤ ·) ∧
    (∀ o ∈ ota_update_task_trace env,
      o.progress ≤ 99 ∨
      (o.progress = 100 ∧ env.performErr = none ∧ env.completeData = true)) := by
  rcases env with ⟨be, isz, reads, pe, cd, fe⟩
  have hchain : (reads.map (dlPct (dlTotal ⟨be, isz, reads, pe, cd, fe⟩))).Chain' (· ≤ ·) := by
    rw [List.chain'_map]
    exact List.Chain'.imp (fun a b h => dlPct_mono _ h) hmono
  cases be with
  | some e =>
    have ht : ota_update_task_trace ⟨some e, isz, reads, pe, cd, fe⟩ =
        [Obs.mk UpdateState.downloading 0, Obs.mk UpdateState.failed 0] := rfl
    rw [ht]
    refine ⟨List.Chain'.cons (le_refl 0) (List.chain'_singleton 0), fun o ho => ?_⟩
    rcases List.mem_cons.mp ho with rfl | ho
    · exact Or.inl (Nat.zero_le _)
    obtain rfl := List.mem_singleton.mp ho
    exact Or.inl (Nat.zero_le _)
  | none =>
    cases pe with
    | some e =>
      have ht : ota_update_task_trace ⟨none, isz, reads, some e, cd, fe⟩ =
          Obs.mk UpdateState.downloading 0 ::
            (reads.map (fun r => Obs.mk UpdateState.downloading
                (dlPct (dlTotal ⟨none, isz, reads, some e, cd, fe⟩) r)) ++
              [Obs.mk UpdateState.failed
                (dlPct (dlTotal ⟨none, isz, reads, some e, cd, fe⟩)
                  (reads.getLast?.getD 0))]) := rfl
      rw [ht]
      constructor
      · have hmapped : (Obs.mk UpdateState.downloading 0 ::
            (reads.map (fun r => Obs.mk UpdateState.downloading
                (dlPct (dlTotal ⟨none, isz, reads, some e, cd, fe⟩) r)) ++
              [Obs.mk UpdateState.failed
                (dlPct (dlTotal ⟨none, isz, reads, some e, cd, fe⟩)
                  (reads.getLast?.getD 0))])).map Obs.progress =
            0 :: (reads.map (dlPct (dlTotal ⟨none, isz, reads, some e, cd, fe⟩)) ++
              [dlPct (dlTotal ⟨none, isz, reads, some e, cd, fe⟩)
                (reads.getLast?.getD 0)]) := by
          rw [List.map_cons, List.map_append, List.map_map]
          rfl
        rw [hmapped]
        exact chain_le_zero_cons _ (chain_le_append_one _ _ hchain
          (pcts_getLast_le _ _ _ le_rfl))
      · intro o ho
        rcases List.mem_cons.mp ho with rfl | ho
        · exact Or.inl (Nat.zero_le _)
        rcases List.mem_append.mp ho with hm | hs
        · obtain ⟨r, _, rfl⟩ := List.mem_map.mp hm
          exact Or.inl (dlPct_le_99 _ _)
        · obtain rfl := List.mem_singleton.mp hs
          exact Or.inl (dlPct_le_99 _ _)
    | none =>
      cases cd with
      | false =>
        have ht : ota_update_task_trace ⟨none, isz, reads, none, false, fe⟩ =
            Obs.mk UpdateState.downloading 0 ::
              (reads.map (fun r => Obs.mk UpdateState.downloading
                  (dlPct (dlTotal ⟨none, isz, reads, none, false, fe⟩) r)) ++
                [Obs.mk UpdateState.failed
                  (dlPct (dlTotal ⟨none, isz, reads, none, false, fe⟩)
                    (reads.getLast?.getD 0))]) := rfl
        rw [ht]
        constructor
        · have hmapped : (Obs.mk UpdateState.downloading 0 ::
              (reads.map (fun r => Obs.mk UpdateState.downloading
                  (dlPct (dlTotal ⟨none, isz, reads, none, false, fe⟩) r)) ++
                [Obs.mk UpdateState.failed
                  (dlPct (dlTotal ⟨none, isz, reads, none, false, fe⟩)
                    (reads.getLast?.getD 0))])).map Obs.progress =
              0 :: (reads.map (dlPct (dlTotal ⟨none, isz, reads, none, false, fe⟩)) ++
                [dlPct (dlTotal ⟨none, isz, reads, none, false, fe⟩)
                  (reads.getLast?.getD 0)]) := by
            rw [List.map_cons, List.map_append, List.map_map]
            rfl
          rw [hmapped]
          exact chain_le_zero_cons _ (chain_le_append_one _ _ hchain
            (pcts_getLast_le _ _ _ le_rfl))
        · intro o ho
          rcases List.mem_cons.mp ho with rfl | ho
          · exact Or.inl (Nat.zero_le _)
          rcases List.mem_append.mp ho with hm | hs
          · obtain ⟨r, _, rfl⟩ := List.mem_map.mp hm
            exact Or.inl (dlPct_le_99 _ _)
          · obtain rfl := List.mem_singleton.mp hs
            exact Or.inl (dlPct_le_99 _ _)
      | true =>
        have hchain2 : ((reads.map (dlPct (dlTotal ⟨none, isz, reads, none, true, fe⟩))
            ++ [100]) ++ [100]).Chain' (· ≤ ·) := by
          refine chain_le_append_one _ _ ?_ ?_
          · exact chain_le_append_one _ _ hchain
              (pcts_getLast_le _ _ _ (le_trans (dlPct_le_99 _ _) (by norm_num)))
          · intro a ha
            rw [List.getLast?_concat] at ha
            simp only [Option.mem_def, Option.some.injEq] at ha
            subst ha
            exact le_rfl
        have hcap : ∀ (st : UpdateState),
            ∀ o ∈ Obs.mk UpdateState.downloading 0 ::
              ((reads.map (fun r => Obs.mk UpdateState.downloading
                  (dlPct (dlTotal ⟨none, isz, reads, none, true, fe⟩) r)) ++
                 [Obs.mk UpdateState.downloading 100]) ++ [Obs.mk st 100]),
              o.progress ≤ 99 ∨ (o.progress = 100 ∧ (none : Option Int) = none ∧
                true = true) := by
          intro st o ho
          rcases List.mem_cons.mp ho with rfl | ho
          · exact Or.inl (Nat.zero_le _)
          rcases List.mem_append.mp ho with hm | hs
          · rcases List.mem_append.mp hm with hm2 | hs2
            · obtain ⟨r, _, rfl⟩ := List.mem_map.mp hm2
              exact Or.inl (dlPct_le_99 _ _)
            · obtain rfl := List.mem_singleton.mp hs2
              exact Or.inr ⟨rfl, rfl, rfl⟩
          · obtain rfl := List.mem_singleton.mp hs
            exact Or.inr ⟨rfl, rfl, rfl⟩
        have hchainfull : ∀ (st : UpdateState),
            ((Obs.mk UpdateState.downloading 0 ::
              ((reads.map (fun r => Obs.mk UpdateState.downloading
                  (dlPct (dlTotal ⟨none, isz, reads, none, true, fe⟩) r)) ++
                 [Obs.mk UpdateState.downloading 100]) ++
                [Obs.mk st 100])).map Obs.progress).Chain' (· ≤ ·) := by
          intro st
          have hmapped : ((Obs.mk UpdateState.downloading 0 ::
              ((reads.map (fun r => Obs.mk UpdateState.downloading
                  (dlPct (dlTotal ⟨none, isz, reads, none, true, fe⟩) r)) ++
                 [Obs.mk UpdateState.downloading 100]) ++
                [Obs.mk st 100])).map Obs.progress) =
              0 :: ((reads.map (dlPct (dlTotal ⟨none, isz, reads, none, true, fe⟩))
                ++ [100]) ++ [100]) := by
            rw [List.map_cons, List.map_append, List.map_append, List.map_map]
            rfl
          rw [hmapped]
          exact chain_le_zero_cons _ hchain2
        cases fe with
        | none =>
          have ht : ota_update_task_trace ⟨none, isz, reads, none, true, none⟩ =
              Obs.mk UpdateState.downloading 0 ::
                ((reads.map (fun r => Obs.mk UpdateState.downloading
                    (dlPct (dlTotal ⟨none, isz, reads, none, true, none⟩) r)) ++
                   [Obs.mk UpdateState.downloading 100]) ++
                  [Obs.mk UpdateState.complete 100]) := rfl
          rw [ht]
          exact ⟨hchainfull UpdateState.complete, hcap UpdateState.complete⟩
        | some e =>
          have ht : ota_update_task_trace ⟨none, isz, reads, none, true, some e⟩ =
              Obs.mk UpdateState.downloading 0 ::
                ((reads.map (fun r => Obs.mk UpdateState.downloading
                    (dlPct (dlTotal ⟨none, isz, reads, none, true, some e⟩) r)) ++
                   [Obs.mk UpdateState.downloading 100]) ++
                  [Obs.mk UpdateState.failed 100]) := rfl
          rw [ht]
          exact ⟨hchainfull UpdateState.failed, hcap UpdateState.failed⟩

/-- C2 amended witness: the monotone/capped property evaluated on the
finish-failure environment. -/
theorem download_progress_monotone_and_capped_witness :
    ((ota_update_task_trace finishFailEnv).map Obs.progress).Chain' (· ≤ ·) ∧
    (∀ o ∈ ota_update_task_trace finishFailEnv,
      o.progress ≤ 99 ∨
      (o.progress = 100 ∧ finishFailEnv.performErr = none ∧
        finishFailEnv.completeData = true)) :=
  download_progress_monotone_and_capped finishFailEnv
    (List.Chain'.cons (by norm_num) (List.chain'_singleton 1000))


theorem upLoop_timeout_step (env : UpEnv) (rest : List RecvEv)
    (remaining received writes : Nat) (first : Bool) (hrem : ¬ remaining = 0) :
    upLoop env (RecvEv.timeout :: rest) remaining received first writes =
      upLoop env rest remaining received first writes := by
  conv_lhs => rw [upLoop]
  simp [hrem]

theorem upLoop_bad_magic_step (env : UpEnv) (d : List Nat) (rest : List RecvEv)
    (remaining received writes : Nat) (hrem : ¬ remaining = 0)
    (hmagic : ¬ d.headD 0 = 0xE9) :
    upLoop env (RecvEv.chunk d :: rest) remaining received true writes =
      some ⟨false, false, writes, received, false, false⟩ := by
  conv_lhs => rw [upLoop]
  rw [if_neg hrem]
  dsimp only
  rw [if_neg hmagic]
  simp

theorem upLoop_done (env : UpEnv) (evs : List RecvEv) (received writes : Nat)
    (first : Bool) :
    upLoop env evs 0 received first writes = upExit env received writes := by
  cases evs with
  | nil =>
    conv_lhs => rw [upLoop]
    simp
  | cons ev rest =>
    cases ev <;> (conv_lhs => rw [upLoop]) <;> simp

/-- C8: a manual upload whose first delivered byte is not the 0xE9 firmware
magic (after any number of receive timeouts) is rejected with an error
response: `esp_ota_begin` is never called and zero `esp_ota_write` calls are
attempted. -/
theorem upload_bad_magic_rejected (env : UpEnv) (s : OtaVars) (k : Nat)
    (d : List Nat) (rest : List RecvEv)
    (hlen : ¬ env.contentLen = 0) (hcap : ¬ env.contentLen > 1500000)
    (halloc : env.allocOk = true) (hpart : env.hasPartition = true)
    (hev : env.events = List.replicate k RecvEv.timeout ++ RecvEv.chunk d :: rest)
    (hmagic : ¬ d.headD 0 = 0xE9) :
    api_ota_upload_handler env s =
      (some ⟨false, false, 0, 0, false, false⟩, s) := by
  have hloop : ∀ n, upLoop env
      (List.replicate n RecvEv.timeout ++ RecvEv.chunk d :: rest)
      env.contentLen 0 true 0 = some ⟨false, false, 0, 0, false, false⟩ := by
    intro n
    induction n with
    | zero =>
      simpa using upLoop_bad_magic_step env d rest env.contentLen 0 0 hlen hmagic
    | succ n ih =>
      rw [List.replicate_succ, List.cons_append,
        upLoop_timeout_step env _ env.contentLen 0 0 true hlen]
      exact ih
  have hbody : api_ota_upload_handler env s =
      (if env.contentLen = 0 ∨ env.contentLen > 1500000 then
        some (⟨false, false, 0, 0, false, false⟩ : UpResult)
      else if ¬ env.allocOk then some ⟨false, false, 0, 0, false, false⟩
      else if ¬ env.hasPartition then some ⟨false, false, 0, 0, false, false⟩
      else upLoop env env.events env.contentLen 0 true 0, s) := rfl
  rw [hbody, if_neg (not_or.mpr ⟨hlen, hcap⟩), if_neg (by simp [halloc]),
    if_neg (by simp [hpart]), hev, hloop k]

/-- C8 witness: a 2-byte first chunk starting with 0x12 instead of 0xE9. -/
theorem upload_bad_magic_rejected_witness :
    api_ota_upload_handler badMagicEnv idleVars =
      (some ⟨false, false, 0, 0, false, false⟩, idleVars) :=
  upload_bad_magic_rejected badMagicEnv idleVars 0 [0x12, 0x34] []
    (by decide) (by decide) rfl rfl rfl (by decide)

theorem upLoop_done_spec (env : UpEnv) (evs : List RecvEv)
    (received writes : Nat) (first : Bool) (res : UpResult)
    (h : upLoop env evs 0 received first writes = some res) :
    (res.aborted = true → res.bootSwitched = false ∧ res.httpOk = false) ∧
    (res.bootSwitched = true →
      res.received = received ∧ env.endErr = none ∧ env.setBootErr = none) := by
  rw [upLoop_done] at h
  unfold upExit at h
  rcases he : env.endErr with _ | e
  · rcases hsb : env.setBootErr with _ | b
    · rw [he, hsb] at h
      obtain rfl := Option.some.inj h
      exact ⟨fun hh => absurd hh (show ¬ (false = true) by decide), fun _ => ⟨rfl, rfl, rfl⟩⟩
    · rw [he, hsb] at h
      obtain rfl := Option.some.inj h
      exact ⟨fun _ => ⟨rfl, rfl⟩, fun hh => absurd hh (show ¬ (false = true) by decide)⟩
  · rw [he] at h
    obtain rfl := Option.some.inj h
    exact ⟨fun _ => ⟨rfl, rfl⟩, fun hh => absurd hh (show ¬ (false = true) by decide)⟩

theorem upLoop_boot_and_abort (env : UpEnv) :
    ∀ (evs : List RecvEv) (remaining received : Nat) (first : Bool)
      (writes : Nat) (res : UpResult),
      upLoop env evs remaining received first writes = some res →
      (res.aborted = true → res.bootSwitched = false ∧ res.httpOk = false) ∧
      (res.bootSwitched = true →
        res.received = received + remaining ∧ env.endErr = none ∧
          env.setBootErr = none) := by
  intro evs
  induction evs with
  | nil =>
    intro remaining received first writes res h
    rcases Nat.eq_zero_or_pos remaining with hrem | hrem
    · subst hrem
      simpa using upLoop_done_spec env [] received writes first res h
    · rw [upLoop, if_neg (by omega)] at h
      exact Option.noConfusion h
  | cons ev rest ih =>
    intro remaining received first writes res h
    rcases Nat.eq_zero_or_pos remaining with hrem | hrem
    · subst hrem
      simpa using upLoop_done_spec env (ev :: rest) received writes first res h
    · have hrem' : ¬ remaining = 0 := by omega
      cases ev with
      | timeout =>
        rw [upLoop_timeout_step env rest remaining received writes first hrem'] at h
        exact ih remaining received first writes res h
      | sockErr =>
        rw [upLoop, if_neg hrem'] at h
        simp only [Option.some.injEq] at h
        subst h
        exact ⟨fun _ => ⟨rfl, rfl⟩, by simp⟩
      | chunk data =>
        rw [upLoop, if_neg hrem'] at h
        dsimp only at h
        have hle : min data.length (min remaining 4096) ≤ remaining :=
          le_trans (min_le_right _ _) (min_le_left _ _)
        cases first with
        | true =>
          rw [if_pos (show (true = true) from rfl)] at h
          by_cases hmg : data.headD 0 = 0xE9
          · rw [if_pos hmg] at h
            rcases hbe : env.beginErr with _ | e
            · rw [hbe] at h
              by_cases hwf : writeFails env writes = true
              · rw [if_pos hwf] at h
                obtain rfl := Option.some.inj h
                exact ⟨fun _ => ⟨rfl, rfl⟩, fun hh => absurd hh (show ¬ (false = true) by decide)⟩
              · rw [if_neg hwf] at h
                have h2 : upLoop env rest
                    (remaining - min data.length (min remaining 4096))
                    (received + min data.length (min remaining 4096)) false
                    (writes + 1) = some res := h
                obtain ⟨ha, hbt⟩ := ih _ _ false _ res h2
                refine ⟨ha, fun hb => ?_⟩
                obtain ⟨hr, hend, hsb⟩ := hbt hb
                exact ⟨by omega, hend, hsb⟩
            · rw [hbe] at h
              obtain rfl := Option.some.inj h
              exact ⟨fun hh => absurd hh (show ¬ (false = true) by decide),
                fun hh => absurd hh (show ¬ (false = true) by decide)⟩
          · rw [if_neg hmg] at h
            obtain rfl := Option.some.inj h
            exact ⟨fun hh => absurd hh (show ¬ (false = true) by decide), fun hh => absurd hh (show ¬ (false = true) by decide)⟩
        | false =>
          rw [if_neg (show ¬ (false = true) from by decide)] at h
          by_cases hwf : writeFails env writes = true
          · rw [if_pos hwf] at h
            obtain rfl := Option.some.inj h
            exact ⟨fun _ => ⟨rfl, rfl⟩, fun hh => absurd hh (show ¬ (false = true) by decide)⟩
          · rw [if_neg hwf] at h
            have h2 : upLoop env rest
                (remaining - min data.length (min remaining 4096))
                (received + min data.length (min remaining 4096)) false
                (writes + 1) = some res := h
            obtain ⟨ha, hbt⟩ := ih _ _ false _ res h2
            refine ⟨ha, fun hb => ?_⟩
            obtain ⟨hr, hend, hsb⟩ := hbt hb
            exact ⟨by omega, hend, hsb⟩

/-- C1 counterexample: an upload that fails at the second `esp_ota_write`
(after the write has started) aborts the OTA handle and leaves the boot
target unchanged, but the update state is not set to Failed — the upload
handler never touches the OTA module's update state. -/
theorem upload_failure_update_state_unchanged :
    (api_ota_upload_handler writeFailEnv idleVars).1 =
      some ⟨false, true, 2, 4, true, false⟩ ∧
    (api_ota_upload_handler writeFailEnv idleVars).2.update_state ≠
      UpdateState.failed := by
  constructor
  · rfl
  · decide

/-- C1 amended: an install that fails after writing has started never
switches the boot partition. On the download path the worker aborts the OTA
handle and sets the update state to Failed; the boot partition is switched
only when the perform loop ended cleanly, the complete-data check passed and
finalization succeeded. On the manual-upload path the handler aborts the
started write and reports the failure in its HTTP response (without touching
the update state), and the boot partition is switched only after exactly
Content-Length bytes were written and `esp_ota_end` and
`esp_ota_set_boot_partition` succeeded. -/
theorem install_failure_never_switches_boot :
    (∀ env : DlEnv, env.beginErr = none →
      (env.performErr ≠ none ∨ env.completeData = false) →
      ota_update_task_run env = ⟨true, true, false, UpdateState.failed⟩) ∧
    (∀ env : DlEnv, (ota_update_task_run env).bootSwitched = true →
      (env.performErr = none ∧ env.completeData = true ∧ env.finishErr = none ∧
        (ota_update_task_run env).finalState = UpdateState.complete)) ∧
    (∀ (env : UpEnv) (s : OtaVars) (res : UpResult),
      (api_ota_upload_handler env s).1 = some res →
      ((api_ota_upload_handler env s).2 = s ∧
        (res.aborted = true → res.bootSwitched = false ∧ res.httpOk = false) ∧
        (res.bootSwitched = true →
          (res.received = env.contentLen ∧ env.endErr = none ∧
            env.setBootErr = none)))) := by
  refine ⟨?_, ?_, ?_⟩
  · rintro ⟨be, isz, reads, pe, cd, fe⟩ hbe hfail
    cases be with
    | some e => exact absurd hbe (by simp)
    | none =>
      rcases hfail with hp | hc
      · cases pe with
        | none => exact absurd rfl hp
        | some e => rfl
      · cases pe with
        | some e => rfl
        | none =>
          cases cd with
          | true => exact absurd hc (by simp)
          | false => rfl
  · rintro ⟨be, isz, reads, pe, cd, fe⟩ hb
    cases be with
    | some e => simp [ota_update_task_run] at hb
    | none =>
      cases pe with
      | some e => simp [ota_update_task_run] at hb
      | none =>
        cases cd with
        | false => simp [ota_update_task_run] at hb
        | true =>
          cases fe with
          | some e => simp [ota_update_task_run] at hb
          | none => exact ⟨rfl, rfl, rfl, rfl⟩
  · intro env s res h
    refine ⟨rfl, ?_⟩
    have h' : (if env.contentLen = 0 ∨ env.contentLen > 1500000 then
          some (⟨false, false, 0, 0, false, false⟩ : UpResult)
        else if ¬ env.allocOk then some ⟨false, false, 0, 0, false, false⟩
        else if ¬ env.hasPartition then some ⟨false, false, 0, 0, false, false⟩
        else upLoop env env.events env.contentLen 0 true 0) = some res := h
    by_cases h1 : env.contentLen = 0 ∨ env.contentLen > 1500000
    · rw [if_pos h1] at h'
      simp only [Option.some.injEq] at h'
      subst h'
      exact ⟨fun hh => absurd hh (show ¬ (false = true) by decide), fun hh => absurd hh (show ¬ (false = true) by decide)⟩
    · rw [if_neg h1] at h'
      by_cases h2 : env.allocOk
      · rw [if_neg (not_not_intro h2)] at h'
        by_cases h3 : env.hasPartition
        · rw [if_neg (not_not_intro h3)] at h'
          obtain ⟨ha, hbt⟩ := upLoop_boot_and_abort env env.events
            env.contentLen 0 true 0 res h'
          refine ⟨ha, fun hb => ?_⟩
          obtain ⟨hr, hend, hsb⟩ := hbt hb
          exact ⟨by omega, hend, hsb⟩
        · rw [if_pos h3] at h'
          simp only [Option.some.injEq] at h'
          subst h'
          exact ⟨fun hh => absurd hh (show ¬ (false = true) by decide), fun hh => absurd hh (show ¬ (false = true) by decide)⟩
      · rw [if_pos h2] at h'
        simp only [Option.some.injEq] at h'
        subst h'
        exact ⟨fun hh => absurd hh (show ¬ (false = true) by decide), fun hh => absurd hh (show ¬ (false = true) by decide)⟩

/-- C1 amended witness: a download whose perform loop fails, and the
write-failure upload run. -/
theorem install_failure_never_switches_boot_witness :
    ota_update_task_run ⟨none, 1000, [500], some (-1), true, none⟩ =
      ⟨true, true, false, UpdateState.failed⟩ ∧
    (api_ota_upload_handler writeFailEnv idleVars).2 = idleVars :=
  ⟨install_failure_never_switches_boot.1 ⟨none, 1000, [500], some (-1), true, none⟩
      rfl (Or.inl (by simp)),
    (install_failure_never_switches_boot.2.2 writeFailEnv idleVars
      ⟨false, true, 2, 4, true, false⟩ rfl).1⟩


end Thermux
